import Mathlib

/-!
Verification of the POS local data-management layer (localStorage repositories,
sale/inventory coordinator, reporting aggregator, backup/restore).

The TypeScript source is shallowly embedded: each repository operation becomes a
pure Lean function taking the stored collection explicitly and returning the new
collection plus the operation's return value.  JS `number` fields holding money
are modelled as `ℚ`; integral counters (stock, quantities) as `ℤ`; timestamps
produced by `new Date()` are threaded in as explicit `String` parameters.
-/

/-- `User` record (storage.ts). -/
structure User where
  id : String
  username : String
  password : String
  role : String
  createdAt : String
  isActive : Bool
deriving DecidableEq

/-- `ProductVariant` record (storage.ts). -/
structure ProductVariant where
  id : String
  name : String
  price : ℚ
  stock : Int
deriving DecidableEq

/-- `Product` record (storage.ts). -/
structure Product where
  id : String
  name : String
  code : String
  category : String
  price : ℚ
  stock : Int
  minStock : Int
  variants : Option (List ProductVariant)
  isActive : Bool
  createdAt : String
  updatedAt : String
deriving DecidableEq

/-- `CartItem` record (storage.ts). -/
structure CartItem where
  productId : String
  variantId : Option String
  name : String
  price : ℚ
  quantity : Int
  total : ℚ
deriving DecidableEq

/-- `Sale` record (storage.ts). -/
structure Sale where
  id : String
  items : List CartItem
  subtotal : ℚ
  tax : ℚ
  discount : ℚ
  total : ℚ
  paymentMethod : String
  amountPaid : ℚ
  change : ℚ
  cashierId : String
  cashierName : String
  receiptPrinted : Bool
  timestamp : String
  date : String
deriving DecidableEq

/-- The settings document.  The storage layer treats it as an untyped blob, so
every field is optional; a field that is `none` is absent from the JS object. -/
structure Settings where
  storeName : Option String
  storeAddress : Option String
  storePhone : Option String
  storeEmail : Option String
  taxRate : Option ℚ
  currency : Option String
  receiptFooter : Option String
deriving DecidableEq

/-- Partial patch for `userStorage.update` (`Partial<User>`). -/
structure UserPatch where
  id : Option String := none
  username : Option String := none
  password : Option String := none
  role : Option String := none
  createdAt : Option String := none
  isActive : Option Bool := none
deriving DecidableEq

/-- Partial patch for `productStorage.update` (`Partial<Product>`). -/
structure ProductPatch where
  id : Option String := none
  name : Option String := none
  code : Option String := none
  category : Option String := none
  price : Option ℚ := none
  stock : Option Int := none
  minStock : Option Int := none
  variants : Option (Option (List ProductVariant)) := none
  isActive : Option Bool := none
  createdAt : Option String := none
  updatedAt : Option String := none
deriving DecidableEq

/-- JS object spread `{ ...u, ...patch }` for users. -/
def applyUserPatch (u : User) (p : UserPatch) : User :=
  { id := p.id.getD u.id
    username := p.username.getD u.username
    password := p.password.getD u.password
    role := p.role.getD u.role
    createdAt := p.createdAt.getD u.createdAt
    isActive := p.isActive.getD u.isActive }

/-- JS object spread `{ ...prod, ...patch }` for products. -/
def applyProductPatch (x : Product) (p : ProductPatch) : Product :=
  { id := p.id.getD x.id
    name := p.name.getD x.name
    code := p.code.getD x.code
    category := p.category.getD x.category
    price := p.price.getD x.price
    stock := p.stock.getD x.stock
    minStock := p.minStock.getD x.minStock
    variants := p.variants.getD x.variants
    isActive := p.isActive.getD x.isActive
    createdAt := p.createdAt.getD x.createdAt
    updatedAt := p.updatedAt.getD x.updatedAt }

/-- `arr[findIndex(...)] = f(arr[findIndex(...)])`: rewrite the first element
whose key matches, leaving everything else in place. -/
def updateFirstBy (key : α → String) (id : String) (f : α → α) : List α → List α
  | [] => []
  | x :: xs => if key x == id then f x :: xs else x :: updateFirstBy key id f xs

-- ---------------------------------------------------------------------------
-- userStorage
-- ---------------------------------------------------------------------------

/-- `userStorage.update(id, updates)`: merge the patch into the first record
with a matching id; `false` and no change when the id is absent. -/
def userStorage_update (users : List User) (id : String) (patch : UserPatch) :
    List User × Bool :=
  match users.find? (fun u => u.id == id) with
  | none => (users, false)
  | some _ => (updateFirstBy (·.id) id (fun u => applyUserPatch u patch) users, true)

/-- `userStorage.delete(id)`. -/
def userStorage_delete (users : List User) (id : String) : List User × Bool :=
  let filtered := users.filter (fun u => !(u.id == id))
  if filtered.length == users.length then (users, false) else (filtered, true)

/-- `userStorage.findByCredentials(username, password)`. -/
def userStorage_findByCredentials (users : List User) (username password : String) :
    Option User :=
  users.find? (fun u => u.username == username && u.password == password && u.isActive)

-- ---------------------------------------------------------------------------
-- productStorage
-- ---------------------------------------------------------------------------

/-- Fields of `productStorage.add`'s argument (`Omit<Product, id/createdAt/updatedAt>`). -/
structure ProductDraft where
  name : String
  code : String
  category : String
  price : ℚ
  stock : Int
  minStock : Int
  variants : Option (List ProductVariant)
  isActive : Bool
deriving DecidableEq

/-- `productStorage.add(product)`: append with a fresh id and timestamps. -/
def productStorage_add (products : List Product) (draft : ProductDraft)
    (genId now : String) : List Product × Product :=
  let newProduct : Product :=
    { id := genId, name := draft.name, code := draft.code, category := draft.category
      price := draft.price, stock := draft.stock, minStock := draft.minStock
      variants := draft.variants, isActive := draft.isActive
      createdAt := now, updatedAt := now }
  (products ++ [newProduct], newProduct)

/-- `productStorage.update(id, updates)`: spread the patch over the first
matching record, then refresh `updatedAt`. -/
def productStorage_update (products : List Product) (id : String)
    (patch : ProductPatch) (now : String) : List Product × Bool :=
  match products.find? (fun p => p.id == id) with
  | none => (products, false)
  | some _ =>
      (updateFirstBy (·.id) id
        (fun p => { applyProductPatch p patch with updatedAt := now }) products, true)

/-- `productStorage.delete(id)`. -/
def productStorage_delete (products : List Product) (id : String) :
    List Product × Bool :=
  let filtered := products.filter (fun p => !(p.id == id))
  if filtered.length == products.length then (products, false) else (filtered, true)

/-- `productStorage.save(products)`: full overwrite of the collection. -/
def productStorage_save (products : List Product) : List Product := products

/-- `productStorage.updateStock(id, quantity, operation)`.  `opIsAdd` is the
`operation === 'add'` direction; the computed new stock is rejected when
negative, otherwise committed together with a fresh `updatedAt`. -/
def productStorage_updateStock (products : List Product) (id : String)
    (quantity : Int) (opIsAdd : Bool) (now : String) : List Product × Bool :=
  match products.find? (fun p => p.id == id) with
  | none => (products, false)
  | some p =>
      let newStock := if opIsAdd then p.stock + quantity else p.stock - quantity
      if newStock < 0 then (products, false)
      else
        (updateFirstBy (·.id) id
          (fun x => { x with stock := newStock, updatedAt := now }) products, true)

-- ---------------------------------------------------------------------------
-- salesStorage
-- ---------------------------------------------------------------------------

/-- Fields of `salesStorage.add`'s argument (`Omit<Sale, id/timestamp/date>`). -/
structure SaleDraft where
  items : List CartItem
  subtotal : ℚ
  tax : ℚ
  discount : ℚ
  total : ℚ
  paymentMethod : String
  amountPaid : ℚ
  change : ℚ
  cashierId : String
  cashierName : String
  receiptPrinted : Bool
deriving DecidableEq

/-- `salesStorage.add(sale)`: build the full `Sale`, run
`updateStock(item.productId, item.quantity)` (direction `subtract`, boolean
result ignored) for every line item, then append the sale to the ledger.
Returns the new product collection, the new ledger and the stored sale. -/
def salesStorage_add (products : List Product) (sales : List Sale)
    (draft : SaleDraft) (genId ts dt : String) :
    List Product × List Sale × Sale :=
  let newSale : Sale :=
    { id := genId, items := draft.items, subtotal := draft.subtotal
      tax := draft.tax, discount := draft.discount, total := draft.total
      paymentMethod := draft.paymentMethod, amountPaid := draft.amountPaid
      change := draft.change, cashierId := draft.cashierId
      cashierName := draft.cashierName, receiptPrinted := draft.receiptPrinted
      timestamp := ts, date := dt }
  let products' := draft.items.foldl
    (fun ps item => (productStorage_updateStock ps item.productId item.quantity false ts).1)
    products
  (products', sales ++ [newSale], newSale)

/-- `salesStorage.getByDateRange(startDate, endDate)`: inclusive lexicographic
filter on the `date` field. -/
def salesStorage_getByDateRange (sales : List Sale) (startDate endDate : String) :
    List Sale :=
  sales.filter (fun s => decide (startDate ≤ s.date) && decide (s.date ≤ endDate))

/-- Result shape of `salesStorage.getDailySummary`. -/
structure DailySummary where
  totalSales : ℚ
  totalTransactions : Nat
  totalItems : Int
  averageTransaction : ℚ
deriving DecidableEq

/-- `salesStorage.getDailySummary(date)`: aggregate over the sales whose `date`
equals the given day. -/
def salesStorage_getDailySummary (sales : List Sale) (date : String) :
    DailySummary :=
  let fs := sales.filter (fun s => s.date == date)
  { totalSales := fs.foldl (fun sum s => sum + s.total) 0
    totalTransactions := fs.length
    totalItems := fs.foldl
      (fun sum s => sum + s.items.foldl (fun itemSum i => itemSum + i.quantity) 0) 0
    averageTransaction :=
      if fs.length > 0 then
        (fs.foldl (fun sum s => sum + s.total) 0) / (fs.length : ℚ)
      else 0 }

-- ---------------------------------------------------------------------------
-- settingsStorage and dataManager
-- ---------------------------------------------------------------------------

/-- The default settings object synthesized by `settingsStorage.get()` when no
document is stored.  The source literal provides exactly five fields:
`storeEmail` and `receiptFooter` are absent from it. -/
def defaultSettings : Settings :=
  { storeName := some "Sari-sari Store"
    storeAddress := some "123 Main Street"
    storePhone := some "+63 123 456 7890"
    storeEmail := none
    taxRate := some 0.12
    currency := some "PHP"
    receiptFooter := none }

/-- `settingsStorage.get()`: the stored document, or the default when absent. -/
def settingsStorage_get (stored : Option Settings) : Settings :=
  stored.getD defaultSettings

/-- The whole persisted state: the four logical keys.  `settings` is `none`
when the settings key is absent from storage. -/
structure DB where
  users : List User
  products : List Product
  sales : List Sale
  settings : Option Settings
deriving DecidableEq

/-- The backup document built by `dataManager.exportData` / consumed by
`importData`.  A key that is absent from the parsed JSON is `none`. -/
structure Snapshot where
  users : Option (List User)
  products : Option (List Product)
  sales : Option (List Sale)
  settings : Option Settings
  exportDate : String
deriving DecidableEq

/-- `dataManager.exportData()`: full read of all repositories plus current
settings, wrapped with an export timestamp. -/
def dataManager_exportData (db : DB) (now : String) : Snapshot :=
  { users := some db.users
    products := some db.products
    sales := some db.sales
    settings := some (settingsStorage_get db.settings)
    exportDate := now }

/-- `dataManager.importData(file)` after a successful parse: each key present
in the document overwrites the corresponding repository via `save`; an absent
key leaves the repository untouched.  Returns the new state and `true`. -/
def dataManager_importData (db : DB) (doc : Snapshot) : DB × Bool :=
  ({ users := doc.users.getD db.users
     products := doc.products.getD db.products
     sales := doc.sales.getD db.sales
     settings := match doc.settings with
       | some s => some s
       | none => db.settings }, true)

-- ---------------------------------------------------------------------------
-- Reporting aggregator (generateReport in the admin reports page)
-- ---------------------------------------------------------------------------

/-- Stable insertion into a list: `a` is placed before the first element that
does not strictly precede it, so equal elements keep their relative order.
`lt x y` means `x` strictly precedes `y` in the desired order. -/
def insertStable (lt : α → α → Bool) (a : α) : List α → List α
  | [] => [a]
  | b :: bs => if lt b a then b :: insertStable lt a bs else a :: b :: bs

/-- Stable sort (the semantics of `Array.prototype.sort` with a comparator,
stable per ES2019): earlier elements are inserted after later ones and land
in front of ties. -/
def sortStable (lt : α → α → Bool) : List α → List α
  | [] => []
  | x :: xs => insertStable lt x (sortStable lt xs)

/-- JS `Map` update: mutate the (unique) entry in place if the key exists,
otherwise append a fresh entry — insertion order is preserved. -/
def upsertBy (key : String) (f : β → β) (init : β) : List (String × β) → List (String × β)
  | [] => [(key, init)]
  | (k, v) :: rest =>
      if k == key then (k, f v) :: rest else (k, v) :: upsertBy key f init rest

/-- `totalSales = sales.reduce((sum, sale) => sum + sale.total, 0)`. -/
def report_totalSales (sales : List Sale) : ℚ :=
  sales.foldl (fun sum s => sum + s.total) 0

/-- `totalTransactions = sales.length`. -/
def report_totalTransactions (sales : List Sale) : Nat := sales.length

/-- `sale.items.reduce((sum, item) => sum + item.quantity, 0)`. -/
def sale_itemCount (s : Sale) : Int :=
  s.items.foldl (fun sum i => sum + i.quantity) 0

/-- Per-day accumulator held in the report's `dailyData` map. -/
structure DailyAgg where
  sales : ℚ
  transactions : Nat
  items : Int
deriving DecidableEq

/-- One `forEach` step of the `dailyData` grouping. -/
def dailyStep (m : List (String × DailyAgg)) (s : Sale) : List (String × DailyAgg) :=
  upsertBy s.date
    (fun d => { sales := d.sales + s.total, transactions := d.transactions + 1
                items := d.items + sale_itemCount s })
    { sales := s.total, transactions := 1, items := sale_itemCount s } m

/-- The `dailyData` map: one `forEach` pass over the sales, upserting by date. -/
def report_dailyData (sales : List Sale) : List (String × DailyAgg) :=
  sales.foldl dailyStep []

/-- A row of the report's `dailyBreakdown`. -/
structure DailyRow where
  date : String
  sales : ℚ
  transactions : Nat
  items : Int
deriving DecidableEq

/-- `dailyBreakdown`: the `dailyData` entries, sorted ascending by date
(`localeCompare`, stable). -/
def report_dailyBreakdown (sales : List Sale) : List DailyRow :=
  sortStable (fun a b => decide (a.date < b.date))
    ((report_dailyData sales).map
      (fun kv => { date := kv.1, sales := kv.2.sales
                   transactions := kv.2.transactions, items := kv.2.items }))

/-- Per-product accumulator held in the report's `productSales` map. -/
structure ProdAgg where
  name : String
  quantity : Int
  revenue : ℚ
deriving DecidableEq

/-- The nested `sales.forEach(sale => sale.items.forEach(...))` traversal
visits every line item of every sale in order. -/
def report_allItems (sales : List Sale) : List CartItem :=
  sales.foldl (fun acc s => acc ++ s.items) []

/-- The fresh `productSales` entry for a line item: the display name is
`product?.name || item.name` — the current product's name when the product
exists and its name is non-empty, the line item's stored name otherwise. -/
def psInit (products : List Product) (item : CartItem) : ProdAgg :=
  { name :=
      match products.find? (fun p => p.id == item.productId) with
      | some p => if p.name == "" then item.name else p.name
      | none => item.name
    quantity := item.quantity
    revenue := item.total }

/-- One step of the `productSales` grouping: an existing entry accumulates
quantity and revenue; a fresh entry is created by `psInit`. -/
def psUpsert (products : List Product) (m : List (String × ProdAgg))
    (item : CartItem) : List (String × ProdAgg) :=
  upsertBy item.productId
    (fun d => { d with quantity := d.quantity + item.quantity
                       revenue := d.revenue + item.total })
    (psInit products item) m

/-- The `productSales` map after the full traversal. -/
def report_productSales (products : List Product) (sales : List Sale) :
    List (String × ProdAgg) :=
  (report_allItems sales).foldl (psUpsert products) []

/-- A row of the report's `topProducts`. -/
structure TopRow where
  productId : String
  productName : String
  quantity : Int
  revenue : ℚ
deriving DecidableEq

/-- `topProducts`: the grouped entries, sorted descending by revenue
(`(a, b) => b.revenue - a.revenue`, stable) and truncated to 10. -/
def report_topProducts (products : List Product) (sales : List Sale) :
    List TopRow :=
  (sortStable (fun a b => decide (b.revenue < a.revenue))
    ((report_productSales products sales).map
      (fun kv => { productId := kv.1, productName := kv.2.name
                   quantity := kv.2.quantity, revenue := kv.2.revenue }))).take 10

-- ---------------------------------------------------------------------------
-- Spec-worded formulations used for refinement claims
-- ---------------------------------------------------------------------------

/-- One step of collecting distinct `productId`s in first-occurrence order. -/
def groupKeysStep (ks : List String) (it : CartItem) : List String :=
  if ks.contains it.productId then ks else ks ++ [it.productId]

/-- The distinct `productId`s of a line-item list, in first-occurrence order. -/
def groupKeys (items : List CartItem) : List String :=
  items.foldl groupKeysStep []

/-- The `ProdAgg` value that the finished `productSales` map holds for one
product id: sums of the matching items' quantities and totals, and the
display name resolved (with the empty-name fallback) from the first
matching item. -/
def prodAggFor (products : List Product) (items : List CartItem) (pid : String) :
    ProdAgg :=
  let mine := items.filter (fun it => it.productId == pid)
  let fallback := ((mine.head?).map (·.name)).getD ""
  { name :=
      match products.find? (fun p => p.id == pid) with
      | some p => if p.name == "" then fallback else p.name
      | none => fallback
    quantity := (mine.map (·.quantity)).sum
    revenue := (mine.map (·.total)).sum }

/-- Closed-form description of the `productSales` map: one entry per distinct
product id in first-occurrence order, carrying the aggregate for that id. -/
def groupRep (products : List Product) (items : List CartItem) :
    List (String × ProdAgg) :=
  (groupKeys items).map (fun pid => (pid, prodAggFor products items pid))

/-- The `topProducts` row C6 literally prescribes for one product id: sum the
quantities and line totals of all items with that id; take the display name
from the current `Product` record when it still exists, and from the (first)
line item's stored name otherwise. -/
def claimRow (products : List Product) (items : List CartItem) (pid : String) :
    TopRow :=
  let mine := items.filter (fun it => it.productId == pid)
  { productId := pid
    productName :=
      match products.find? (fun p => p.id == pid) with
      | some p => p.name
      | none => ((mine.head?).map (·.name)).getD ""
    quantity := (mine.map (·.quantity)).sum
    revenue := (mine.map (·.total)).sum }

/-- `topProducts` exactly as claim C6 words it. -/
def claim_topProducts (products : List Product) (sales : List Sale) :
    List TopRow :=
  (sortStable (fun a b => decide (b.revenue < a.revenue))
    ((groupKeys (report_allItems sales)).map
      (claimRow products (report_allItems sales)))).take 10

/-- The C6 row with the one correction the code forces: a product that still
exists but has an empty name also falls back to the line item's stored name
(the source resolves the name with `||`, and `""` is falsy). -/
def amendedRow (products : List Product) (items : List CartItem) (pid : String) :
    TopRow :=
  let mine := items.filter (fun it => it.productId == pid)
  let fallback := ((mine.head?).map (·.name)).getD ""
  { productId := pid
    productName :=
      match products.find? (fun p => p.id == pid) with
      | some p => if p.name == "" then fallback else p.name
      | none => fallback
    quantity := (mine.map (·.quantity)).sum
    revenue := (mine.map (·.total)).sum }

/-- `topProducts` as amended claim C6 words it. -/
def amended_topProducts (products : List Product) (sales : List Sale) :
    List TopRow :=
  (sortStable (fun a b => decide (b.revenue < a.revenue))
    ((groupKeys (report_allItems sales)).map
      (amendedRow products (report_allItems sales)))).take 10

-- ---------------------------------------------------------------------------
-- Concrete fixtures for witnesses and counterexamples
-- ---------------------------------------------------------------------------

/-- A product with 5 units in stock. -/
def exProduct1 : Product :=
  { id := "p1", name := "Cola", code := "C1", category := "Drinks", price := 25
    stock := 5, minStock := 1, variants := none, isActive := true
    createdAt := "2024-01-01T00:00:00.000Z", updatedAt := "2024-01-01T00:00:00.000Z" }

/-- A product with 0 units in stock. -/
def exProduct2 : Product :=
  { id := "p2", name := "Soap", code := "S1", category := "Care", price := 45
    stock := 0, minStock := 1, variants := none, isActive := true
    createdAt := "2024-01-01T00:00:00.000Z", updatedAt := "2024-01-01T00:00:00.000Z" }

/-- A product whose name is the empty string. -/
def exProductBlank : Product :=
  { id := "p1", name := "", code := "C1", category := "Drinks", price := 25
    stock := 5, minStock := 1, variants := none, isActive := true
    createdAt := "2024-01-01T00:00:00.000Z", updatedAt := "2024-01-01T00:00:00.000Z" }

/-- A line item: 3 units of product `p1`. -/
def exItem1 : CartItem :=
  { productId := "p1", variantId := none, name := "Cola", price := 25
    quantity := 3, total := 75 }

/-- A line item: 1 unit of product `p2` (which has zero stock). -/
def exItem2 : CartItem :=
  { productId := "p2", variantId := none, name := "Soap", price := 45
    quantity := 1, total := 45 }

/-- A sale draft containing 3 units of `p1` and 1 unit of `p2`. -/
def exDraft : SaleDraft :=
  { items := [exItem1, exItem2], subtotal := 120, tax := 14.4, discount := 0
    total := 134.4, paymentMethod := "cash", amountPaid := 150, change := 15.6
    cashierId := "u1", cashierName := "cashier", receiptPrinted := false }

/-- A stored sale containing one line item that references `p1`. -/
def exSale : Sale :=
  { id := "s1", items := [exItem1], subtotal := 75, tax := 0, discount := 0
    total := 75, paymentMethod := "cash", amountPaid := 75, change := 0
    cashierId := "u1", cashierName := "cashier", receiptPrinted := false
    timestamp := "2024-01-02T10:00:00.000Z", date := "2024-01-02" }

/-- The default admin user. -/
def exUser : User :=
  { id := "u1", username := "admin", password := "admin123", role := "admin"
    createdAt := "2024-01-01T00:00:00.000Z", isActive := true }

/-- A product patch writing a negative stock value. -/
def exNegStockPatch : ProductPatch := { stock := some (-1) }

/-- A product patch attempting to set `updatedAt`. -/
def exUpdatedAtPatch : ProductPatch := { updatedAt := some "2020-01-01T00:00:00.000Z" }

/-- A user patch rewriting the identifier and the creation timestamp. -/
def exIdPatch : UserPatch :=
  { id := some "u9", createdAt := some "1999-01-01T00:00:00.000Z" }

/-- A snapshot document with all four keys absent. -/
def exEmptySnapshot : Snapshot :=
  { users := none, products := none, sales := none, settings := none
    exportDate := "2024-02-01T00:00:00.000Z" }

/-- A concrete database state. -/
def exDB : DB :=
  { users := [exUser], products := [exProduct1, exProduct2], sales := [exSale]
    settings := none }

-- ---------------------------------------------------------------------------
-- Shared helper lemmas
-- ---------------------------------------------------------------------------

/-- Folding `+ g x` over a list starting from `init` adds the sum of images. -/
theorem foldl_add_eq_sum {M : Type} [AddCommMonoid M] (g : α → M) :
    ∀ (l : List α) (init : M),
      l.foldl (fun acc x => acc + g x) init = init + (l.map g).sum
  | [], init => by simp
  | x :: xs, init => by
      rw [List.foldl_cons, foldl_add_eq_sum g xs (init + g x), List.map_cons,
        List.sum_cons, add_assoc]

/-- Stable insertion only rearranges: image sums are preserved. -/
theorem sum_map_insertStable {M : Type} [AddCommMonoid M]
    (lt : α → α → Bool) (g : α → M) (a : α) :
    ∀ l : List α, ((insertStable lt a l).map g).sum = g a + (l.map g).sum := by
  intro l
  induction l with
  | nil => simp [insertStable]
  | cons b bs ih =>
      unfold insertStable
      cases hlt : lt b a with
      | false => simp
      | true => simp [ih, add_left_comm]

/-- Stable sorting only rearranges: image sums are preserved. -/
theorem sum_map_sortStable {M : Type} [AddCommMonoid M]
    (lt : α → α → Bool) (g : α → M) :
    ∀ l : List α, ((sortStable lt l).map g).sum = (l.map g).sum := by
  intro l
  induction l with
  | nil => rfl
  | cons x xs ih => rw [sortStable, sum_map_insertStable, ih, List.map_cons, List.sum_cons]

/-- An upsert whose update adds `c` to a measure `g` of the value, and whose
fresh value measures `c`, raises the total measure of the map by `c`. -/
theorem sum_snd_upsertBy {M : Type} [AddCommMonoid M] (g : β → M) (k : String)
    (f : β → β) (init : β) (c : M)
    (hf : ∀ v, g (f v) = g v + c) (hi : g init = c) :
    ∀ m : List (String × β),
      ((upsertBy k f init m).map (fun kv => g kv.2)).sum
        = ((m.map (fun kv => g kv.2)).sum) + c := by
  intro m
  induction m with
  | nil => simp [upsertBy, hi]
  | cons kv rest ih =>
      obtain ⟨k', v⟩ := kv
      unfold upsertBy
      cases h : (k' == k) with
      | true => simp [hf v, add_assoc, add_comm c]
      | false => simp [ih, add_assoc]

/-- `find?` over a decomposed list whose prefix has no matching key finds the
marked element. -/
theorem find?_key_append (key : α → String) (id : String) :
    ∀ (pre : List α) (a : α) (post : List α),
      (∀ x ∈ pre, key x ≠ id) → key a = id →
      (pre ++ a :: post).find? (fun x => key x == id) = some a := by
  intro pre
  induction pre with
  | nil =>
      intro a post _ ha
      simp [List.find?_cons, ha]
  | cons y ys ih =>
      intro a post hpre ha
      have hy : (key y == id) = false := by
        simpa using hpre y (List.mem_cons_self y ys)
      simp only [List.cons_append, List.find?_cons, hy]
      exact ih a post (fun x hx => hpre x (List.mem_cons_of_mem y hx)) ha

/-- `updateFirstBy` over a decomposed list whose prefix has no matching key
rewrites exactly the marked element. -/
theorem updateFirstBy_append (key : α → String) (id : String) (f : α → α) :
    ∀ (pre : List α) (a : α) (post : List α),
      (∀ x ∈ pre, key x ≠ id) → key a = id →
      updateFirstBy key id f (pre ++ a :: post) = pre ++ f a :: post := by
  intro pre
  induction pre with
  | nil =>
      intro a post _ ha
      simp [updateFirstBy, ha]
  | cons y ys ih =>
      intro a post hpre ha
      have hy : (key y == id) = false := by
        simpa using hpre y (List.mem_cons_self y ys)
      have ih' := ih a post (fun x hx => hpre x (List.mem_cons_of_mem y hx)) ha
      simp only [List.cons_append, updateFirstBy, hy]
      simpa using congrArg (fun l => y :: l) ih'

/-- Every element of `updateFirstBy key id f l` is an element of `l` or the
image under `f` of an element of `l`. -/
theorem updateFirstBy_mem (key : α → String) (id : String) (f : α → α) :
    ∀ (l : List α) (x : α), x ∈ updateFirstBy key id f l →
      x ∈ l ∨ ∃ y ∈ l, x = f y := by
  intro l
  induction l with
  | nil => intro x hx; simp [updateFirstBy] at hx
  | cons a as ih =>
      intro x hx
      unfold updateFirstBy at hx
      by_cases h : (key a == id) = true
      · rw [if_pos h] at hx
        rcases List.mem_cons.mp hx with h1 | h1
        · exact Or.inr ⟨a, List.mem_cons_self a as, h1⟩
        · exact Or.inl (List.mem_cons_of_mem a h1)
      · rw [if_neg h] at hx
        rcases List.mem_cons.mp hx with h1 | h1
        · exact Or.inl (h1 ▸ List.mem_cons_self a as)
        · rcases ih x h1 with h2 | ⟨y, hy, hxy⟩
          · exact Or.inl (List.mem_cons_of_mem a h2)
          · exact Or.inr ⟨y, List.mem_cons_of_mem a hy, hxy⟩

/-- `head?` of an append looks only at a nonempty left part. -/
theorem head?_append_left (l l' : List α) (h : l ≠ []) :
    (l ++ l').head? = l.head? := by
  cases l with
  | nil => exact absurd rfl h
  | cons a as => rfl

-- ---------------------------------------------------------------------------
-- C1: sale recording is not atomic (code bug)
-- ---------------------------------------------------------------------------

/-- Claim C1 (evaluation of the defect): with products of stock 5 and 0 and a
sale draft asking 3 units of the first and 1 unit of the second,
`salesStorage.add` decrements the first product to 2 anyway, leaves the second
at 0, and still appends the sale to the ledger — instead of rejecting the whole
sale with no stock change and no ledger append. -/
theorem C1_salesAdd_not_atomic_eval :
    ((salesStorage_add [exProduct1, exProduct2] [] exDraft "s9"
        "2024-03-01T00:00:00.000Z" "2024-03-01").1.map (·.stock) = [2, 0]) ∧
    ((salesStorage_add [exProduct1, exProduct2] [] exDraft "s9"
        "2024-03-01T00:00:00.000Z" "2024-03-01").2.1.length = 1) ∧
    exProduct1.stock = 5 ∧ exProduct2.stock = 0 ∧
    exItem2.quantity > exProduct2.stock := by
  decide

-- ---------------------------------------------------------------------------
-- C7: findByCredentials
-- ---------------------------------------------------------------------------

/-- Claim C7: `findByCredentials` returns a user exactly when some stored user
matches the username exactly, matches the password exactly and is active; in
every other case (unknown username, wrong password, inactive account) it
returns the same value `none`, so the failure cases are observably identical. -/
theorem C7_findByCredentials_correct (users : List User) (username password : String) :
    (∀ u, userStorage_findByCredentials users username password = some u →
        u ∈ users ∧ u.username = username ∧ u.password = password ∧ u.isActive = true) ∧
    (userStorage_findByCredentials users username password = none ↔
        ∀ u ∈ users, ¬(u.username = username ∧ u.password = password ∧ u.isActive = true)) := by
  unfold userStorage_findByCredentials
  constructor
  · intro u hu
    have hmem := List.mem_of_find?_eq_some hu
    have hp := List.find?_some hu
    simp only [Bool.and_eq_true, beq_iff_eq] at hp
    exact ⟨hmem, hp.1.1, hp.1.2, hp.2⟩
  · rw [List.find?_eq_none]
    constructor
    · intro h u hu hc
      have := h u hu
      simp [hc.1, hc.2.1, hc.2.2] at this
    · intro h u hu hc
      simp only [Bool.and_eq_true, beq_iff_eq] at hc
      exact h u hu ⟨hc.1.1, hc.1.2, hc.2⟩

/-- Witness for C7: a wrong password for an existing user and an unknown
username both yield `none`. -/
theorem C7_witness :
    userStorage_findByCredentials [exUser] "admin" "wrong" = none ∧
    userStorage_findByCredentials [exUser] "nosuchuser" "x" = none := by
  constructor
  · exact (C7_findByCredentials_correct [exUser] "admin" "wrong").2.mpr (by decide)
  · exact (C7_findByCredentials_correct [exUser] "nosuchuser" "x").2.mpr (by decide)

-- ---------------------------------------------------------------------------
-- C8: getDailySummary
-- ---------------------------------------------------------------------------

/-- Claim C8: `getDailySummary` aggregates exactly the sales whose `date`
equals the given day — `totalSales` is the sum of their totals,
`totalTransactions` their count, `totalItems` the sum of all their item
quantities, and `averageTransaction` is `totalSales / totalTransactions`, with
value 0 when there are no transactions. -/
theorem C8_getDailySummary_correct (sales : List Sale) (date : String) :
    (salesStorage_getDailySummary sales date).totalSales
        = ((sales.filter (fun s => s.date == date)).map (·.total)).sum ∧
    (salesStorage_getDailySummary sales date).totalTransactions
        = (sales.filter (fun s => s.date == date)).length ∧
    (salesStorage_getDailySummary sales date).totalItems
        = ((sales.filter (fun s => s.date == date)).map
            (fun s => (s.items.map (·.quantity)).sum)).sum ∧
    (salesStorage_getDailySummary sales date).averageTransaction
        = (if (sales.filter (fun s => s.date == date)).length = 0 then 0
           else ((sales.filter (fun s => s.date == date)).map (·.total)).sum
                / ((sales.filter (fun s => s.date == date)).length : ℚ)) := by
  have hg : ∀ s : Sale,
      List.foldl (fun itemSum i => itemSum + i.quantity) 0 s.items
        = (s.items.map (·.quantity)).sum := fun s => by
    simpa using foldl_add_eq_sum (·.quantity) s.items 0
  have hsum : ∀ l : List Sale,
      List.foldl (fun sum s => sum + s.total) 0 l = (l.map (·.total)).sum := fun l => by
    simpa using foldl_add_eq_sum (·.total) l 0
  refine ⟨?_, rfl, ?_, ?_⟩
  · exact hsum _
  · show List.foldl
        (fun sum s => sum + List.foldl (fun itemSum i => itemSum + i.quantity) 0 s.items)
        0 (sales.filter fun s => s.date == date) = _
    simp only [hg]
    simpa using
      foldl_add_eq_sum (fun s : Sale => (s.items.map (·.quantity)).sum)
        (sales.filter fun s => s.date == date) 0
  · show (if (sales.filter fun s => s.date == date).length > 0 then
        List.foldl (fun sum s => sum + s.total) 0 (sales.filter fun s => s.date == date)
          / (((sales.filter fun s => s.date == date).length : ℚ))
      else 0) = _
    rcases Nat.eq_zero_or_pos (sales.filter fun s => s.date == date).length with h | h
    · simp [h]
    · rw [if_pos h, if_neg (Nat.pos_iff_ne_zero.mp h), hsum]

-- ---------------------------------------------------------------------------
-- C9: settings defaults (corrected)
-- ---------------------------------------------------------------------------

/-- Claim C9 (counterexample): the default document synthesized by
`settingsStorage.get()` carries neither `storeEmail` nor `receiptFooter`, so
it does not carry all seven data-model fields. -/
theorem C9_counterexample :
    (settingsStorage_get none).storeEmail = none ∧
    (settingsStorage_get none).receiptFooter = none ∧
    ¬((settingsStorage_get none).storeEmail.isSome = true ∧
      (settingsStorage_get none).receiptFooter.isSome = true) := by
  decide

/-- Claim C9 (amended): with no stored document, `settingsStorage.get()`
synthesizes a default whose `taxRate` is 0.12 and whose `currency` is "PHP";
the default carries exactly the five fields `storeName`, `storeAddress`,
`storePhone`, `taxRate`, `currency`, while `storeEmail` and `receiptFooter`
are absent from it. -/
theorem C9_settings_default :
    (settingsStorage_get none).taxRate = some 0.12 ∧
    (settingsStorage_get none).currency = some "PHP" ∧
    (settingsStorage_get none).storeName = some "Sari-sari Store" ∧
    (settingsStorage_get none).storeAddress = some "123 Main Street" ∧
    (settingsStorage_get none).storePhone = some "+63 123 456 7890" ∧
    (settingsStorage_get none).storeEmail = none ∧
    (settingsStorage_get none).receiptFooter = none :=
  ⟨rfl, rfl, rfl, rfl, rfl, rfl, rfl⟩

-- ---------------------------------------------------------------------------
-- C2 / C3: stock invariants
-- ---------------------------------------------------------------------------

/-- `updateStock` never turns a nonnegative-stock collection into one with a
negative stock: the rejected branches change nothing, and the committed branch
writes the checked, nonnegative new stock. -/
theorem updateStock_preserves_nonneg (id : String) (q : Int) (opIsAdd : Bool)
    (now : String) :
    ∀ ps : List Product, (∀ x ∈ ps, 0 ≤ x.stock) →
      ∀ x ∈ (productStorage_updateStock ps id q opIsAdd now).1, 0 ≤ x.stock := by
  intro ps hps x hx
  cases hfind : ps.find? (fun p => p.id == id) with
  | none =>
      simp only [productStorage_updateStock, hfind] at hx
      exact hps x hx
  | some p2 =>
      simp only [productStorage_updateStock, hfind] at hx
      by_cases hneg : (if opIsAdd then p2.stock + q else p2.stock - q) < 0
      · rw [if_pos hneg] at hx
        exact hps x hx
      · rw [if_neg hneg] at hx
        rcases updateFirstBy_mem (·.id) id _ ps x hx with h1 | ⟨y, _, hxy⟩
        · exact hps x h1
        · subst hxy
          simpa using not_lt.mp hneg

/-- Claim C2: for a product present in the collection (decomposed as
`pre ++ p :: post` with no earlier id match), `updateStock` returns `false` and
leaves the whole collection unchanged whenever the computed new stock would be
negative; otherwise it commits exactly the new stock on that product and
returns `true`.  Consequently it never leaves any product of a
nonnegative-stock collection with stock below zero. -/
theorem C2_updateStock_correct (pre post : List Product) (p : Product)
    (id : String) (q : Int) (opIsAdd : Bool) (now : String)
    (hpre : ∀ x ∈ pre, x.id ≠ id) (hp : p.id = id) :
    ((if opIsAdd then p.stock + q else p.stock - q) < 0 →
        productStorage_updateStock (pre ++ p :: post) id q opIsAdd now
          = (pre ++ p :: post, false)) ∧
    (0 ≤ (if opIsAdd then p.stock + q else p.stock - q) →
        productStorage_updateStock (pre ++ p :: post) id q opIsAdd now
          = (pre ++ { p with stock := (if opIsAdd then p.stock + q else p.stock - q),
                             updatedAt := now } :: post, true)) ∧
    (∀ ps : List Product, (∀ x ∈ ps, 0 ≤ x.stock) →
        ∀ x ∈ (productStorage_updateStock ps id q opIsAdd now).1, 0 ≤ x.stock) := by
  have hfind := find?_key_append (·.id) id pre p post hpre hp
  refine ⟨?_, ?_, updateStock_preserves_nonneg id q opIsAdd now⟩
  · intro hneg
    simp only [productStorage_updateStock, hfind]
    rw [if_pos hneg]
  · intro hpos
    simp only [productStorage_updateStock, hfind]
    rw [if_neg (not_lt.mpr hpos)]
    rw [updateFirstBy_append (·.id) id _ pre p post hpre hp]

/-- Witness for C2: subtracting 7 from a stock of 5 is rejected — `false` is
returned and the collection is unchanged. -/
theorem C2_witness :
    productStorage_updateStock [exProduct1] "p1" 7 false "t1" = ([exProduct1], false) := by
  have h := C2_updateStock_correct [] [] exProduct1 "p1" 7 false "t1"
    (by simp) rfl
  exact h.1 (by decide)

/-- Claim C3 (counterexample): starting from a collection whose only product
has stock 5 (so the invariant holds), `productStorage.update` with the patch
`{stock: -1}` succeeds and stores a negative stock — not every public Products
operation preserves the nonnegative-stock invariant. -/
theorem C3_counterexample :
    (∀ p ∈ [exProduct1], 0 ≤ p.stock) ∧
    (productStorage_update [exProduct1] "p1" exNegStockPatch "t1").2 = true ∧
    ¬(∀ p ∈ (productStorage_update [exProduct1] "p1" exNegStockPatch "t1").1,
        0 ≤ p.stock) := by
  decide

/-- Claim C3 (amended): starting from a collection in which every product has
stock ≥ 0, `delete` and `updateStock` always leave every stored product with
stock ≥ 0, and `add`, `update` and `save` do so whenever the stock values
supplied in their input are themselves nonnegative (they store a negative
supplied stock unchecked). -/
theorem C3_invariant_amended (products : List Product)
    (h : ∀ p ∈ products, 0 ≤ p.stock) :
    (∀ (draft : ProductDraft) (genId now : String), 0 ≤ draft.stock →
        ∀ p ∈ (productStorage_add products draft genId now).1, 0 ≤ p.stock) ∧
    (∀ (id : String) (patch : ProductPatch) (now : String),
        (∀ s, patch.stock = some s → 0 ≤ s) →
        ∀ p ∈ (productStorage_update products id patch now).1, 0 ≤ p.stock) ∧
    (∀ id : String, ∀ p ∈ (productStorage_delete products id).1, 0 ≤ p.stock) ∧
    (∀ (id : String) (q : Int) (opIsAdd : Bool) (now : String),
        ∀ p ∈ (productStorage_updateStock products id q opIsAdd now).1, 0 ≤ p.stock) ∧
    (∀ ps : List Product, (∀ p ∈ ps, 0 ≤ p.stock) →
        ∀ p ∈ productStorage_save ps, 0 ≤ p.stock) := by
  refine ⟨?_, ?_, ?_, ?_, fun ps hps p hp => hps p hp⟩
  · intro draft genId now hd p hp
    simp only [productStorage_add] at hp
    rcases List.mem_append.mp hp with h1 | h1
    · exact h p h1
    · rw [List.mem_singleton.mp h1]
      simpa using hd
  · intro id patch now hpatch p hp
    cases hfind : products.find? (fun x => x.id == id) with
    | none =>
        simp only [productStorage_update, hfind] at hp
        exact h p hp
    | some p0 =>
        simp only [productStorage_update, hfind] at hp
        rcases updateFirstBy_mem (·.id) id _ products p hp with h1 | ⟨y, hy, hxy⟩
        · exact h p h1
        · subst hxy
          cases hs : patch.stock with
          | none => simpa [applyProductPatch, hs] using h y hy
          | some s => simpa [applyProductPatch, hs] using hpatch s hs
  · intro id p hp
    simp only [productStorage_delete] at hp
    split at hp
    · exact h p hp
    · exact h p (List.mem_of_mem_filter hp)
  · intro id q opIsAdd now
    exact updateStock_preserves_nonneg id q opIsAdd now products h

/-- Witness for C3 (amended): a legitimate stock decrement on a
nonnegative-stock collection leaves every stock nonnegative. -/
theorem C3_witness :
    (∀ p ∈ [exProduct1], 0 ≤ p.stock) ∧
    (∀ p ∈ (productStorage_updateStock [exProduct1] "p1" 2 false "t1").1,
        0 ≤ p.stock) := by
  refine ⟨by decide, ?_⟩
  exact (C3_invariant_amended [exProduct1] (by decide)).2.2.2.1 "p1" 2 false "t1"

-- ---------------------------------------------------------------------------
-- C10: update merges arbitrary patch fields
-- ---------------------------------------------------------------------------

/-- Claim C10 (counterexample): `productStorage.update` does not merge the
patch's `updatedAt` field — the committed record's `updatedAt` is the current
time, not the patched value, even though the call returns `true`. -/
theorem C10_counterexample :
    (productStorage_update [exProduct1] "p1" exUpdatedAtPatch
        "2025-01-01T00:00:00.000Z").2 = true ∧
    exUpdatedAtPatch.updatedAt = some "2020-01-01T00:00:00.000Z" ∧
    ((productStorage_update [exProduct1] "p1" exUpdatedAtPatch
        "2025-01-01T00:00:00.000Z").1.map (·.updatedAt)
      = ["2025-01-01T00:00:00.000Z"]) ∧
    ¬((productStorage_update [exProduct1] "p1" exUpdatedAtPatch
        "2025-01-01T00:00:00.000Z").1.map (·.updatedAt)
      = ["2020-01-01T00:00:00.000Z"]) := by
  decide

/-- Claim C10 (amended): `update` places no field off-limits: for a collection
containing a record with the given identifier (decomposed as `pre ++ r :: post`
with no earlier id match), `update(id, patch)` merges every field of the patch
into that record and returns `true` — in particular a patch carrying `id`
rewrites the identifier and one carrying `createdAt` rewrites the creation
timestamp — with the single exception that `productStorage.update` always
overwrites `updatedAt` with the current time, discarding any `updatedAt` value
in a product patch. -/
theorem C10_update_merges_all_fields :
    (∀ (pre post : List User) (u : User) (id : String) (patch : UserPatch),
        (∀ x ∈ pre, x.id ≠ id) → u.id = id →
        userStorage_update (pre ++ u :: post) id patch
          = (pre ++ applyUserPatch u patch :: post, true) ∧
        (applyUserPatch u patch).id = patch.id.getD u.id ∧
        (applyUserPatch u patch).createdAt = patch.createdAt.getD u.createdAt ∧
        (applyUserPatch u patch).username = patch.username.getD u.username ∧
        (applyUserPatch u patch).password = patch.password.getD u.password ∧
        (applyUserPatch u patch).role = patch.role.getD u.role ∧
        (applyUserPatch u patch).isActive = patch.isActive.getD u.isActive) ∧
    (∀ (pre post : List Product) (p : Product) (id : String)
        (patch : ProductPatch) (now : String),
        (∀ x ∈ pre, x.id ≠ id) → p.id = id →
        productStorage_update (pre ++ p :: post) id patch now
          = (pre ++ { applyProductPatch p patch with updatedAt := now } :: post, true) ∧
        ({ applyProductPatch p patch with updatedAt := now } : Product).id
          = patch.id.getD p.id ∧
        ({ applyProductPatch p patch with updatedAt := now } : Product).createdAt
          = patch.createdAt.getD p.createdAt ∧
        ({ applyProductPatch p patch with updatedAt := now } : Product).updatedAt
          = now) := by
  constructor
  · intro pre post u id patch hpre hu
    refine ⟨?_, rfl, rfl, rfl, rfl, rfl, rfl⟩
    have hfind := find?_key_append (·.id) id pre u post hpre hu
    simp only [userStorage_update, hfind]
    rw [updateFirstBy_append (·.id) id _ pre u post hpre hu]
  · intro pre post p id patch now hpre hp
    refine ⟨?_, rfl, rfl, rfl⟩
    have hfind := find?_key_append (·.id) id pre p post hpre hp
    simp only [productStorage_update, hfind]
    rw [updateFirstBy_append (·.id) id _ pre p post hpre hp]

/-- Witness for C10: patching `id` and `createdAt` on the only stored user
rewrites both fields and returns `true`. -/
theorem C10_witness :
    userStorage_update [exUser] "u1" exIdPatch
      = ([applyUserPatch exUser exIdPatch], true) ∧
    (applyUserPatch exUser exIdPatch).id = "u9" ∧
    (applyUserPatch exUser exIdPatch).createdAt = "1999-01-01T00:00:00.000Z" := by
  have h := (C10_update_merges_all_fields).1 [] [] exUser "u1" exIdPatch
    (by simp) rfl
  exact ⟨h.1, by decide, by decide⟩

-- ---------------------------------------------------------------------------
-- C4: export/import round trip
-- ---------------------------------------------------------------------------

/-- Claim C4: importing the document produced by exporting the full data set
reproduces identical users, products and sales collections and identical
observable settings; and for every import document, each of the four keys
absent from the document leaves the corresponding repository untouched. -/
theorem C4_backup_roundtrip (db : DB) (now : String) :
    ((dataManager_importData db (dataManager_exportData db now)).1.users
        = db.users ∧
     (dataManager_importData db (dataManager_exportData db now)).1.products
        = db.products ∧
     (dataManager_importData db (dataManager_exportData db now)).1.sales
        = db.sales ∧
     settingsStorage_get
        (dataManager_importData db (dataManager_exportData db now)).1.settings
        = settingsStorage_get db.settings) ∧
    (∀ doc : Snapshot,
      (doc.users = none → (dataManager_importData db doc).1.users = db.users) ∧
      (doc.products = none →
          (dataManager_importData db doc).1.products = db.products) ∧
      (doc.sales = none → (dataManager_importData db doc).1.sales = db.sales) ∧
      (doc.settings = none →
          (dataManager_importData db doc).1.settings = db.settings)) := by
  constructor
  · exact ⟨rfl, rfl, rfl, rfl⟩
  · intro doc
    refine ⟨?_, ?_, ?_, ?_⟩ <;> intro h <;> simp [dataManager_importData, h]

/-- Witness for C4: the round trip over a concrete state preserves the users,
and importing a document with no keys leaves the products untouched. -/
theorem C4_witness :
    (dataManager_importData exDB
        (dataManager_exportData exDB "2024-02-01T00:00:00.000Z")).1.users
      = exDB.users ∧
    (dataManager_importData exDB exEmptySnapshot).1.products = exDB.products := by
  refine ⟨(C4_backup_roundtrip exDB "2024-02-01T00:00:00.000Z").1.1, ?_⟩
  exact ((C4_backup_roundtrip exDB "2024-02-01T00:00:00.000Z").2 exEmptySnapshot).2.1 rfl

-- ---------------------------------------------------------------------------
-- C5: dailyBreakdown reconciles with the totals
-- ---------------------------------------------------------------------------

/-- Folding the daily grouping step raises the map's total of the per-day
`sales` field by the totals of the processed sales. -/
theorem foldl_dailyStep_sales :
    ∀ (sales : List Sale) (m : List (String × DailyAgg)),
      ((sales.foldl dailyStep m).map (fun kv => kv.2.sales)).sum
        = ((m.map (fun kv => kv.2.sales)).sum) + (sales.map (·.total)).sum := by
  intro sales
  induction sales with
  | nil => simp
  | cons s rest ih =>
      intro m
      rw [List.foldl_cons, ih (dailyStep m s), dailyStep]
      rw [sum_snd_upsertBy (fun d : DailyAgg => d.sales) s.date _ _ s.total
        (fun v => rfl) rfl m]
      rw [List.map_cons, List.sum_cons, add_assoc]

/-- Folding the daily grouping step raises the map's total of the per-day
`transactions` field by the number of processed sales. -/
theorem foldl_dailyStep_transactions :
    ∀ (sales : List Sale) (m : List (String × DailyAgg)),
      ((sales.foldl dailyStep m).map (fun kv => kv.2.transactions)).sum
        = ((m.map (fun kv => kv.2.transactions)).sum) + sales.length := by
  intro sales
  induction sales with
  | nil => simp
  | cons s rest ih =>
      intro m
      rw [List.foldl_cons, ih (dailyStep m s), dailyStep]
      rw [sum_snd_upsertBy (fun d : DailyAgg => d.transactions) s.date _ _ 1
        (fun v => rfl) rfl m]
      simp only [List.length_cons]
      omega

/-- Claim C5: over the sales of the requested date range, the report's
`dailyBreakdown` rows sum exactly to its own totals — the row `sales` fields
sum to `totalSales` and the row `transactions` fields sum to
`totalTransactions`. -/
theorem C5_dailyBreakdown_reconciles (allSales : List Sale)
    (startDate endDate : String) :
    ((report_dailyBreakdown (salesStorage_getByDateRange allSales startDate endDate)).map
        (·.sales)).sum
      = report_totalSales (salesStorage_getByDateRange allSales startDate endDate) ∧
    ((report_dailyBreakdown (salesStorage_getByDateRange allSales startDate endDate)).map
        (·.transactions)).sum
      = report_totalTransactions (salesStorage_getByDateRange allSales startDate endDate) := by
  generalize salesStorage_getByDateRange allSales startDate endDate = fs
  constructor
  · rw [report_dailyBreakdown, sum_map_sortStable, List.map_map]
    have h := foldl_dailyStep_sales fs []
    simp only [List.map_nil, List.sum_nil, zero_add] at h
    have h2 : report_totalSales fs = (fs.map (·.total)).sum := by
      simpa [report_totalSales] using foldl_add_eq_sum (·.total) fs 0
    rw [h2, ← h, report_dailyData]
    rfl
  · rw [report_dailyBreakdown, sum_map_sortStable, List.map_map]
    have h := foldl_dailyStep_transactions fs []
    simp only [List.map_nil, List.sum_nil, zero_add] at h
    have h2 : report_totalTransactions fs = fs.length := rfl
    rw [h2, ← h, report_dailyData]
    rfl

-- ---------------------------------------------------------------------------
-- C6: topProducts
-- ---------------------------------------------------------------------------

/-- Membership in the folded key collection: a key is present exactly when it
was present in the accumulator or is the product id of a processed item. -/
theorem foldl_groupKeysStep_mem :
    ∀ (todo : List CartItem) (acc : List String) (pid : String),
      pid ∈ todo.foldl groupKeysStep acc ↔
        pid ∈ acc ∨ ∃ it ∈ todo, it.productId = pid := by
  intro todo
  induction todo with
  | nil => simp
  | cons it rest ih =>
      intro acc pid
      rw [List.foldl_cons, ih]
      have hstep : pid ∈ groupKeysStep acc it ↔ pid ∈ acc ∨ it.productId = pid := by
        unfold groupKeysStep
        by_cases hc : acc.contains it.productId = true
        · rw [if_pos hc]
          have hin : it.productId ∈ acc := List.elem_iff.mp hc
          constructor
          · exact Or.inl
          · rintro (h | h)
            · exact h
            · exact h ▸ hin
        · rw [if_neg hc]
          simp [List.mem_append, eq_comm]
      rw [hstep]
      constructor
      · rintro ((h | h) | ⟨x, hx, hxp⟩)
        · exact Or.inl h
        · exact Or.inr ⟨it, List.mem_cons_self it rest, h⟩
        · exact Or.inr ⟨x, List.mem_cons_of_mem it hx, hxp⟩
      · rintro (h | ⟨x, hx, hxp⟩)
        · exact Or.inl (Or.inl h)
        · rcases List.mem_cons.mp hx with h1 | h1
          · exact Or.inl (Or.inr (h1 ▸ hxp))
          · exact Or.inr ⟨x, h1, hxp⟩

/-- A key appears in `groupKeys items` exactly when some item carries it. -/
theorem groupKeys_mem (items : List CartItem) (pid : String) :
    pid ∈ groupKeys items ↔ ∃ it ∈ items, it.productId = pid := by
  unfold groupKeys
  rw [foldl_groupKeysStep_mem]
  simp

/-- The folded key collection stays duplicate-free. -/
theorem foldl_groupKeysStep_nodup :
    ∀ (todo : List CartItem) (acc : List String),
      acc.Nodup → (todo.foldl groupKeysStep acc).Nodup := by
  intro todo
  induction todo with
  | nil => exact fun acc h => h
  | cons it rest ih =>
      intro acc hnd
      rw [List.foldl_cons]
      apply ih
      unfold groupKeysStep
      by_cases hc : acc.contains it.productId = true
      · rwa [if_pos hc]
      · rw [if_neg hc]
        have hmem : it.productId ∉ acc := fun h => hc (List.elem_iff.mpr h)
        simp [List.nodup_append, hnd, hmem]

/-- `groupKeys` is duplicate-free. -/
theorem groupKeys_nodup (items : List CartItem) : (groupKeys items).Nodup :=
  foldl_groupKeysStep_nodup items [] List.nodup_nil

/-- Appending one item to the grouped items performs one key-collection step. -/
theorem groupKeys_append_singleton (done : List CartItem) (it : CartItem) :
    groupKeys (done ++ [it]) = groupKeysStep (groupKeys done) it := by
  unfold groupKeys
  rw [List.foldl_append]
  rfl

/-- Upserting a key already present in a keyed map built over duplicate-free
keys updates exactly that key's value. -/
theorem upsertBy_map_mem (k : String) (f : β → β) (init : β) (g : String → β) :
    ∀ ks : List String, ks.Nodup → k ∈ ks →
      upsertBy k f init (ks.map (fun x => (x, g x)))
        = ks.map (fun x => (x, if x = k then f (g x) else g x)) := by
  intro ks
  induction ks with
  | nil => intro _ h; simp at h
  | cons a rest ih =>
      intro hnd hmem
      simp only [List.map_cons, upsertBy]
      by_cases hak : a = k
      · have hb : (a == k) = true := by simp [hak]
        rw [hb]
        simp only [if_true]
        subst hak
        rw [if_pos rfl]
        have hrest : ∀ x ∈ rest, ((x, if x = a then f (g x) else g x) : String × β)
            = (x, g x) := by
          intro x hx
          have hxa : x ≠ a := fun h => (List.nodup_cons.mp hnd).1 (h ▸ hx)
          simp [hxa]
        rw [List.map_eq_map_iff.mpr hrest]
      · have hb : (a == k) = false := by simp [hak]
        rw [hb]
        simp only [Bool.false_eq_true, if_false]
        have hkrest : k ∈ rest := by
          rcases List.mem_cons.mp hmem with h1 | h1
          · exact absurd h1.symm hak
          · exact h1
        rw [ih (List.nodup_cons.mp hnd).2 hkrest]
        simp [hak]

/-- Upserting a key absent from a keyed map appends a fresh entry. -/
theorem upsertBy_map_not_mem (k : String) (f : β → β) (init : β) (g : String → β) :
    ∀ ks : List String, k ∉ ks →
      upsertBy k f init (ks.map (fun x => (x, g x)))
        = ks.map (fun x => (x, g x)) ++ [(k, init)] := by
  intro ks
  induction ks with
  | nil => intro _; rfl
  | cons a rest ih =>
      intro hmem
      have hak : a ≠ k := fun h => hmem (h ▸ List.mem_cons_self a rest)
      have hb : (a == k) = false := by simp [hak]
      simp only [List.map_cons, upsertBy, hb, Bool.false_eq_true, if_false,
        List.cons_append]
      rw [ih (fun h => hmem (List.mem_cons_of_mem a h))]

/-- Appending an item with a different product id does not change a key's
aggregate. -/
theorem prodAggFor_append_ne (products : List Product) (done : List CartItem)
    (it : CartItem) (pid : String) (hne : it.productId ≠ pid) :
    prodAggFor products (done ++ [it]) pid = prodAggFor products done pid := by
  have hb : (it.productId == pid) = false := by simp [hne]
  unfold prodAggFor
  rw [List.filter_append]
  simp [List.filter_cons, hb]

/-- Appending an item whose product id is already grouped updates that key's
aggregate by the item's quantity and total, keeping the display name. -/
theorem prodAggFor_append_upd (products : List Product) (done : List CartItem)
    (it : CartItem) (pid : String) (hpid : it.productId = pid)
    (hmem : ∃ x ∈ done, x.productId = pid) :
    prodAggFor products (done ++ [it]) pid
      = { prodAggFor products done pid with
          quantity := (prodAggFor products done pid).quantity + it.quantity
          revenue := (prodAggFor products done pid).revenue + it.total } := by
  have hb : (it.productId == pid) = true := by simp [hpid]
  have hmine : (done ++ [it]).filter (fun x => x.productId == pid)
      = done.filter (fun x => x.productId == pid) ++ [it] := by
    rw [List.filter_append]
    simp [List.filter_cons, hb]
  have hne : done.filter (fun x => x.productId == pid) ≠ [] := by
    obtain ⟨x, hx, hxp⟩ := hmem
    intro hnil
    have := List.filter_eq_nil_iff.mp hnil x hx
    simp [hxp] at this
  simp only [prodAggFor]
  rw [hmine, head?_append_left _ _ hne]
  simp [List.map_append, List.sum_append]

/-- Appending an item whose product id is new creates exactly the fresh
`psInit` aggregate for that key. -/
theorem prodAggFor_append_new (products : List Product) (done : List CartItem)
    (it : CartItem) (pid : String) (hpid : it.productId = pid)
    (hnone : ∀ x ∈ done, x.productId ≠ pid) :
    prodAggFor products (done ++ [it]) pid = psInit products it := by
  have hb : (it.productId == pid) = true := by simp [hpid]
  have hnil : done.filter (fun x => x.productId == pid) = [] :=
    List.filter_eq_nil_iff.mpr (fun x hx => by simp [hnone x hx])
  unfold prodAggFor psInit
  rw [List.filter_append, hnil]
  simp [List.filter_cons, hb, hpid]

/-- One grouping step on the closed-form map representation. -/
theorem psUpsert_groupRep (products : List Product) (done : List CartItem)
    (it : CartItem) :
    psUpsert products (groupRep products done) it
      = groupRep products (done ++ [it]) := by
  by_cases hmem : it.productId ∈ groupKeys done
  · unfold psUpsert groupRep
    rw [upsertBy_map_mem it.productId _ (psInit products it)
      (fun pid => prodAggFor products done pid) (groupKeys done)
      (groupKeys_nodup done) hmem]
    rw [groupKeys_append_singleton]
    unfold groupKeysStep
    rw [if_pos (List.elem_iff.mpr hmem)]
    apply List.map_eq_map_iff.mpr
    intro pid hpid
    by_cases hk : pid = it.productId
    · rw [if_pos hk]
      have hmemdone : ∃ x ∈ done, x.productId = pid := by
        obtain ⟨x, hx, hxp⟩ := (groupKeys_mem done it.productId).mp hmem
        exact ⟨x, hx, hxp.trans hk.symm⟩
      rw [prodAggFor_append_upd products done it pid hk.symm hmemdone]
    · rw [if_neg hk]
      rw [prodAggFor_append_ne products done it pid (fun h => hk h.symm)]
  · unfold psUpsert groupRep
    rw [upsertBy_map_not_mem it.productId _ (psInit products it)
      (fun pid => prodAggFor products done pid) (groupKeys done) hmem]
    rw [groupKeys_append_singleton]
    unfold groupKeysStep
    rw [if_neg (fun hc => hmem (List.elem_iff.mp hc))]
    rw [List.map_append]
    congr 1
    · apply List.map_eq_map_iff.mpr
      intro pid hpid
      have hne : it.productId ≠ pid := fun h => hmem (h ▸ hpid)
      rw [prodAggFor_append_ne products done it pid hne]
    · simp only [List.map_cons, List.map_nil]
      rw [prodAggFor_append_new products done it it.productId rfl
        (fun x hx h => hmem ((groupKeys_mem done it.productId).mpr ⟨x, hx, h⟩))]

/-- The whole grouping fold in closed form. -/
theorem foldl_psUpsert_groupRep (products : List Product) :
    ∀ (todo done : List CartItem),
      todo.foldl (psUpsert products) (groupRep products done)
        = groupRep products (done ++ todo) := by
  intro todo
  induction todo with
  | nil => intro done; simp
  | cons it rest ih =>
      intro done
      rw [List.foldl_cons, psUpsert_groupRep products done it, ih (done ++ [it])]
      simp

/-- The `productSales` map is the closed-form grouping of all line items. -/
theorem report_productSales_eq_groupRep (products : List Product)
    (sales : List Sale) :
    report_productSales products sales
      = groupRep products (report_allItems sales) :=
  foldl_psUpsert_groupRep products (report_allItems sales) []

/-- Claim C6 (counterexample): with a product that still exists but has an
empty name, the code resolves the display name with `||` and falls back to the
line item's stored name, while the claim's procedure prescribes the product
record's (empty) name — so `topProducts` as implemented differs from the
procedure the claim states. -/
theorem C6_counterexample :
    ((report_topProducts [exProductBlank] [exSale]).map (·.productName)
        = ["Cola"]) ∧
    ((claim_topProducts [exProductBlank] [exSale]).map (·.productName)
        = [""]) ∧
    report_topProducts [exProductBlank] [exSale]
      ≠ claim_topProducts [exProductBlank] [exSale] := by
  decide

/-- Claim C6 (amended): `topProducts` is obtained by grouping all line items of
the in-range sales by product id in first-occurrence order, summing quantity
and line-item totals into revenue, taking the display name from the current
product record when the product still exists and has a non-empty name, and
from the first matching line item's stored name otherwise, sorting descending
by revenue with ties kept in grouping-insertion order, and truncating to at
most 10 entries. -/
theorem C6_topProducts_amended (products : List Product) (sales : List Sale) :
    report_topProducts products sales = amended_topProducts products sales := by
  unfold report_topProducts amended_topProducts
  rw [report_productSales_eq_groupRep]
  unfold groupRep
  rw [List.map_map]
  rfl
